import Mathlib

set_option maxHeartbeats 1000000

/-
  Verification of the geminiprint infinite-canvas application.

  The embedding below translates the relevant parts of the source:
  coordinates are exact rationals (the source uses JS doubles), node ids
  are JS strings modelled as their character sequences, and the
  asynchronous generation batch is modelled as an explicit settle
  sequence over the orchestrator state.
-/

/-- Node ids are JS strings, modelled as character sequences. -/
abbrev NodeId := List Char

/-- JS String.prototype.startsWith: does `s` start with `p`? -/
def idStartsWith : NodeId → NodeId → Bool
  | _, [] => true
  | [], _ :: _ => false
  | c :: cs, d :: ds => decide (c = d) && idStartsWith cs ds

/-- The sentinel prepended to a placeholder's id when its generation fails
(App.tsx, `handleGenerate`: `'FAILED-' + img.id`). -/
def failedMark : NodeId := "FAILED-".data

/-- GenerationStatus from types.ts. -/
inductive GenerationStatus where
  | IDLE
  | GENERATING
  | ERROR
  | SUCCESS
deriving DecidableEq

/-- CanvasImage from types.ts.  The optional `isLoading` field is a Bool
(undefined behaves as false). -/
structure CanvasImage where
  id : NodeId
  url : String
  prompt : String
  parentId : Option NodeId := none
  timestamp : Int
  isLoading : Bool := false
  x : ℚ
  y : ℚ
  rotation : ℚ
  scale : ℚ
deriving DecidableEq

/-- The viewport state of Canvas.tsx: `view = { x, y, k }` with pan `(x, y)`
and zoom `k`. -/
structure ViewState where
  x : ℚ
  y : ℚ
  k : ℚ
deriving DecidableEq

/-- The screen-to-world conversion used by Canvas.tsx
(`mouseWorld = (mouse - view.pan) / view.k`). -/
def screenToWorld (p : ℚ × ℚ) (v : ViewState) : ℚ × ℚ :=
  ((p.1 - v.x) / v.k, (p.2 - v.y) / v.k)

/-- The world-to-screen map applied by the content container's CSS
transform `translate(view.x, view.y) scale(view.k)`. -/
def worldToScreen (p : ℚ × ℚ) (v : ViewState) : ℚ × ℚ :=
  (p.1 * v.k + v.x, p.2 * v.k + v.y)

/-- Canvas.tsx `handleWheel`: multiplicative zoom delta, clamped to
[0.1, 4], with the pan recomputed so the world point under the
mouse stays under the mouse. -/
def handleWheel (view : ViewState) (deltaY clientX clientY rectLeft rectTop : ℚ) : ViewState :=
  let scaleAmount := -deltaY * 0.001
  let newScale := min (max 0.1 (view.k * (1 + scaleAmount))) 4
  let mouseX := clientX - rectLeft
  let mouseY := clientY - rectTop
  let mouseWorldX := (mouseX - view.x) / view.k
  let mouseWorldY := (mouseY - view.y) / view.k
  { x := mouseX - mouseWorldX * newScale, y := mouseY - mouseWorldY * newScale, k := newScale }

/-- ImageCard.tsx `handleResizeStart`'s mousemove handler:
`newScale = max(0.2, startScale + deltaY * 0.005)`. -/
def resizeNewScale (startScale deltaY : ℚ) : ℚ :=
  max 0.2 (startScale + deltaY * 0.005)

/-- C7: for every viewport with nonzero zoom and every screen point,
worldToScreen and screenToWorld are exact inverses. -/
theorem c7_world_screen_inverse (v : ViewState) (p : ℚ × ℚ) (h : v.k ≠ 0) :
    worldToScreen (screenToWorld p v) v = p := by
  cases p with
  | mk a b =>
      simp only [worldToScreen, screenToWorld]
      rw [div_mul_cancel₀ _ h, div_mul_cancel₀ _ h]
      simp

theorem c7_world_screen_inverse_witness :
    (⟨(3 : ℚ), 4, 2⟩ : ViewState).k ≠ 0 ∧
      worldToScreen (screenToWorld ((7 : ℚ), (9 : ℚ)) ⟨3, 4, 2⟩) ⟨3, 4, 2⟩ = ((7 : ℚ), (9 : ℚ)) :=
  ⟨by norm_num, c7_world_screen_inverse ⟨3, 4, 2⟩ (7, 9) (by norm_num)⟩

/-- C2: a wheel zoom keeps the world point that was under the pointer at
the same screen pixel: converting that world point back to screen with
the post-wheel viewport returns the anchor. -/
theorem c2_zoom_anchored (view : ViewState) (deltaY clientX clientY rectLeft rectTop : ℚ)
    (h : view.k ≠ 0) :
    worldToScreen (screenToWorld (clientX - rectLeft, clientY - rectTop) view)
        (handleWheel view deltaY clientX clientY rectLeft rectTop)
      = (clientX - rectLeft, clientY - rectTop) := by
  simp only [worldToScreen, screenToWorld, handleWheel]
  rw [Prod.mk.injEq]
  exact ⟨by ring, by ring⟩

theorem c2_zoom_anchored_witness :
    (⟨(5 : ℚ), -2, 2⟩ : ViewState).k ≠ 0 ∧
      worldToScreen (screenToWorld ((100 : ℚ) - 10, (80 : ℚ) - 20) ⟨5, -2, 2⟩)
          (handleWheel ⟨5, -2, 2⟩ 120 100 80 10 20)
        = ((100 : ℚ) - 10, (80 : ℚ) - 20) :=
  ⟨by norm_num, c2_zoom_anchored ⟨5, -2, 2⟩ 120 100 80 10 20 (by norm_num)⟩

/-- C6: every resize-gesture update yields a scale of at least 0.2, and
every wheel-gesture update yields a zoom within [0.1, 4]. -/
theorem c6_clamp_bounds (startScale deltaY : ℚ)
    (view : ViewState) (dY cX cY rL rT : ℚ) :
    (0.2 : ℚ) ≤ resizeNewScale startScale deltaY
    ∧ (0.1 : ℚ) ≤ (handleWheel view dY cX cY rL rT).k
    ∧ (handleWheel view dY cX cY rL rT).k ≤ 4 := by
  refine ⟨le_max_left _ _, ?_, ?_⟩
  · simp only [handleWheel]
    exact le_min (le_max_left _ _) (by norm_num)
  · simp only [handleWheel]
    exact min_le_right _ _

/-- App.tsx `calculateSpawnPositions`: one row 400 world units below the
source, 320 apart horizontally and centred on the source, with a random
vertical jitter `Math.random() * 40 - 20` per slot.  The random draws
are passed in as `rand`, one draw per slot index. -/
def calculateSpawnPositions (count : ℕ) (parentX parentY : ℚ) (rand : ℕ → ℚ) : List (ℚ × ℚ) :=
  (List.range count).map fun (i : ℕ) =>
    (parentX + ((i : ℚ) - ((count : ℚ) - 1) / 2) * 320,
     parentY + 400 + (rand i * 40 - 20))

/-- C5: the spawn layout produces the centred-row x positions
`px + (i - (count-1)/2) * 320` and y positions within
`[py + 380, py + 420]` (jitter in [-20, 20)); in particular for
count 5 and anchor (100, 200) the x values are -540, -220, 100, 420,
740 and every y lies within [580, 620]. -/
theorem c5_spawn_layout (count : ℕ) (px py : ℚ) (rand : ℕ → ℚ)
    (hr : ∀ i, 0 ≤ rand i ∧ rand i < 1) :
    (calculateSpawnPositions count px py rand).map Prod.fst
        = (List.range count).map (fun (i : ℕ) => px + ((i : ℚ) - ((count : ℚ) - 1) / 2) * 320)
    ∧ (∀ q ∈ calculateSpawnPositions count px py rand, py + 380 ≤ q.2 ∧ q.2 ≤ py + 420)
    ∧ (count = 5 → px = 100 → py = 200 →
        (calculateSpawnPositions count px py rand).map Prod.fst = [-540, -220, 100, 420, 740]
        ∧ ∀ q ∈ calculateSpawnPositions count px py rand, 580 ≤ q.2 ∧ q.2 ≤ 620) := by
  have hy : ∀ q ∈ calculateSpawnPositions count px py rand, py + 380 ≤ q.2 ∧ q.2 ≤ py + 420 := by
    intro q hq
    simp only [calculateSpawnPositions, List.mem_map, List.mem_range] at hq
    obtain ⟨i, -, rfl⟩ := hq
    obtain ⟨h0, h1⟩ := hr i
    constructor <;> simp only [] <;> nlinarith
  refine ⟨?_, hy, ?_⟩
  · simp only [calculateSpawnPositions, List.map_map]
    rfl
  · rintro rfl rfl rfl
    constructor
    · simp [calculateSpawnPositions, List.range_succ]
      norm_num
    · intro q hq
      have := hy q hq
      constructor <;> linarith [this.1, this.2]

theorem c5_spawn_layout_witness :
    (∀ i : ℕ, 0 ≤ ((fun _ => (1 : ℚ) / 2) i) ∧ ((fun _ => (1 : ℚ) / 2) i) < 1)
    ∧ ((calculateSpawnPositions 5 100 200 (fun _ => (1 : ℚ) / 2)).map Prod.fst
          = (List.range 5).map (fun (i : ℕ) => 100 + ((i : ℚ) - ((5 : ℚ) - 1) / 2) * 320)
        ∧ (∀ q ∈ calculateSpawnPositions 5 100 200 (fun _ => (1 : ℚ) / 2),
            (200 : ℚ) + 380 ≤ q.2 ∧ q.2 ≤ 200 + 420)
        ∧ ((5 : ℕ) = 5 → (100 : ℚ) = 100 → (200 : ℚ) = 200 →
            (calculateSpawnPositions 5 100 200 (fun _ => (1 : ℚ) / 2)).map Prod.fst
                = [-540, -220, 100, 420, 740]
            ∧ ∀ q ∈ calculateSpawnPositions 5 100 200 (fun _ => (1 : ℚ) / 2),
                580 ≤ q.2 ∧ q.2 ≤ 620)) :=
  ⟨fun _ => by norm_num, c5_spawn_layout 5 100 200 (fun _ => (1 : ℚ) / 2) (fun _ => by norm_num)⟩

/-- App.tsx `handleSelect`: clicking a node toggles its selection. -/
def handleSelect (id : NodeId) (sel : Option NodeId) : Option NodeId :=
  if sel = some id then none else some id

/-- App.tsx `handleDelete`: filter the node out of the collection and
clear the selection if it pointed at the deleted node.  Returns the new
collection and the new selection. -/
def handleDelete (id : NodeId) (imgs : List CanvasImage) (selectedId : Option NodeId) :
    List CanvasImage × Option NodeId :=
  (imgs.filter (fun img => decide (img.id ≠ id)),
   if selectedId = some id then none else selectedId)

/-- One connector produced by Canvas.tsx `renderLines`: the endpoint
anchors and the two Bezier control points, plus the ids of the two
endpoint cards. -/
structure Connector where
  parentRef : NodeId
  childRef : NodeId
  startX : ℚ
  startY : ℚ
  endX : ℚ
  endY : ℚ
  cp1x : ℚ
  cp1y : ℚ
  cp2x : ℚ
  cp2y : ℚ
deriving DecidableEq

/-- Canvas.tsx `renderLines`: for every node whose `parentId` resolves to
a present node, emit a cubic Bezier connector; a missing parent yields no
connector, and `showLines = false` suppresses all of them. -/
def renderLines (showLines : Bool) (imgs : List CanvasImage) : List Connector :=
  if !showLines then []
  else imgs.filterMap fun img =>
    match img.parentId with
    | none => none
    | some pid =>
      match imgs.find? (fun p => decide (p.id = pid)) with
      | none => none
      | some parent =>
        some { parentRef := parent.id, childRef := img.id,
               startX := parent.x + 140, startY := parent.y + 150,
               endX := img.x + 140, endY := img.y + 150,
               cp1x := parent.x + 140, cp1y := ((parent.y + 150) + (img.y + 150)) / 2,
               cp2x := img.x + 140, cp2y := ((parent.y + 150) + (img.y + 150)) / 2 }

/-- C8: deleting a node removes exactly that node (all other nodes,
including its children with their parentId, survive unchanged), clears
the selection iff it pointed at the deleted node, and afterwards every
rendered connector's parent is a present node, so no connector is drawn
from the deleted id. -/
theorem c8_delete_orphans (id : NodeId) (imgs : List CanvasImage) (sel : Option NodeId)
    (showLines : Bool) :
    (∀ img, img ∈ (handleDelete id imgs sel).1 ↔ (img ∈ imgs ∧ img.id ≠ id))
    ∧ (handleDelete id imgs sel).2 = (if sel = some id then none else sel)
    ∧ (∀ c ∈ renderLines showLines (handleDelete id imgs sel).1,
        (∃ parent ∈ (handleDelete id imgs sel).1, parent.id = c.parentRef) ∧ c.parentRef ≠ id) := by
  have hmem : ∀ img, img ∈ (handleDelete id imgs sel).1 ↔ (img ∈ imgs ∧ img.id ≠ id) := by
    intro img
    simp [handleDelete, List.mem_filter]
  refine ⟨hmem, rfl, ?_⟩
  intro c hc
  cases showLines with
  | false => simp [renderLines] at hc
  | true =>
    simp only [renderLines, Bool.not_true, Bool.false_eq_true, reduceIte,
      List.mem_filterMap] at hc
    obtain ⟨img, -, himg⟩ := hc
    split at himg
    · exact absurd himg (by simp)
    · split at himg
      · exact absurd himg (by simp)
      · rename_i parent hfind
        have hp1 : parent ∈ (handleDelete id imgs sel).1 := List.mem_of_find?_eq_some hfind
        have hp2 : parent.id ≠ id := ((hmem parent).mp hp1).2
        have hc' := Option.some.inj himg
        have hcp : c.parentRef = parent.id := by rw [← hc']
        exact ⟨⟨parent, hp1, hcp.symm⟩, by rw [hcp]; exact hp2⟩

theorem c8_delete_orphans_witness :
    (∀ img, img ∈ (handleDelete ['a'] [⟨['a'], "", "p", none, 0, false, 0, 0, 0, 1⟩,
          ⟨['b'], "", "p", some ['a'], 0, false, 1, 2, 0, 1⟩] (some ['a'])).1
        ↔ (img ∈ [⟨['a'], "", "p", none, 0, false, 0, 0, 0, 1⟩,
          (⟨['b'], "", "p", some ['a'], 0, false, 1, 2, 0, 1⟩ : CanvasImage)] ∧ img.id ≠ ['a']))
    ∧ (handleDelete ['a'] [⟨['a'], "", "p", none, 0, false, 0, 0, 0, 1⟩,
          ⟨['b'], "", "p", some ['a'], 0, false, 1, 2, 0, 1⟩] (some ['a'])).2
        = (if (some ['a'] : Option NodeId) = some ['a'] then none else some ['a'])
    ∧ (∀ c ∈ renderLines true (handleDelete ['a'] [⟨['a'], "", "p", none, 0, false, 0, 0, 0, 1⟩,
          ⟨['b'], "", "p", some ['a'], 0, false, 1, 2, 0, 1⟩] (some ['a'])).1,
        (∃ parent ∈ (handleDelete ['a'] [⟨['a'], "", "p", none, 0, false, 0, 0, 0, 1⟩,
          ⟨['b'], "", "p", some ['a'], 0, false, 1, 2, 0, 1⟩] (some ['a'])).1,
          parent.id = c.parentRef) ∧ c.parentRef ≠ ['a']) :=
  c8_delete_orphans ['a'] [⟨['a'], "", "p", none, 0, false, 0, 0, 0, 1⟩,
    ⟨['b'], "", "p", some ['a'], 0, false, 1, 2, 0, 1⟩] (some ['a']) true

/-- JS truthiness of a `string | null` value: null and the empty string
are falsy.  The orchestrator's `.then(url => ... if (url) ...)` branches
on this. -/
def jsTruthy : Option String → Bool
  | none => false
  | some s => !s.isEmpty

/-- The map step of the reconciliation updater in App.tsx
`handleGenerate`: the settling placeholder is updated in place on a
truthy url and renamed with the FAILED- sentinel otherwise; every other
node passes through unchanged. -/
def settleMap (pid : NodeId) (url? : Option String) (img : CanvasImage) : CanvasImage :=
  if img.id = pid then
    if jsTruthy url? then { img with url := url?.getD "", isLoading := false }
    else { img with id := failedMark ++ img.id }
  else img

/-- The full reconciliation updater passed to `setImages` when one
generation request settles: map, then drop every node whose id starts
with the FAILED- sentinel. -/
def reconcile (pid : NodeId) (url? : Option String) (imgs : List CanvasImage) : List CanvasImage :=
  (imgs.map (settleMap pid url?)).filter (fun img => !idStartsWith img.id failedMark)

/-- The orchestrator state touched by one generation batch: the shared
node collection, the batch status, and the `activeRequests` countdown
closure variable. -/
structure OrchState where
  images : List CanvasImage
  status : GenerationStatus
  activeRequests : ℕ
deriving DecidableEq

/-- One request settling through `.then` and `.finally`: reconcile the
collection, decrement `activeRequests`, and on reaching zero set the
batch status to SUCCESS. -/
def stepSettle (pid : NodeId) (url? : Option String) (s : OrchState) : OrchState :=
  let images := reconcile pid url? s.images
  let active := s.activeRequests - 1
  { images := images,
    activeRequests := active,
    status := if active = 0 then GenerationStatus.SUCCESS else s.status }

/-- Settling a whole batch: the requests resolve in the order given by
`seq`, each carrying its placeholder and its url result. -/
def runBatch (seq : List (CanvasImage × Option String)) (s : OrchState) : OrchState :=
  seq.foldl (fun st job => stepSettle job.1.id job.2 st) s

/-- A list always starts with its own prefix. -/
theorem idStartsWith_append (p s : NodeId) : idStartsWith (p ++ s) p = true := by
  induction p with
  | nil => cases s <;> rfl
  | cons c cs ih => simp [idStartsWith, ih]

/-- C10: any settling request's reconciliation update removes every node
whose id starts with the FAILED- sentinel, not only the settling
placeholder: a sentinel-carrying node never survives a reconcile, and
its id is absent afterwards. -/
theorem c10_failed_sentinel (pid : NodeId) (url? : Option String) (imgs : List CanvasImage)
    (img : CanvasImage) (hmem : img ∈ imgs) (hpre : idStartsWith img.id failedMark = true) :
    (∀ n ∈ reconcile pid url? imgs, idStartsWith n.id failedMark = false)
    ∧ img.id ∉ (reconcile pid url? imgs).map CanvasImage.id := by
  have hall : ∀ n ∈ reconcile pid url? imgs, idStartsWith n.id failedMark = false := by
    intro n hn
    have := (List.mem_filter.mp hn).2
    simpa using this
  refine ⟨hall, ?_⟩
  intro hid
  obtain ⟨n, hn, hnid⟩ := List.mem_map.mp hid
  have := hall n hn
  rw [hnid, hpre] at this
  exact Bool.true_eq_false.mp this

theorem c10_failed_sentinel_witness :
    (⟨"FAILED-x".data, "", "p", none, 0, true, 0, 0, 0, 1⟩ : CanvasImage)
        ∈ [(⟨"FAILED-x".data, "", "p", none, 0, true, 0, 0, 0, 1⟩ : CanvasImage),
           ⟨"y".data, "u", "p", none, 0, false, 0, 0, 0, 1⟩]
    ∧ idStartsWith (⟨"FAILED-x".data, "", "p", none, 0, true, 0, 0, 0, 1⟩ : CanvasImage).id
        failedMark = true
    ∧ ((∀ n ∈ reconcile "y".data (some "u2")
          [(⟨"FAILED-x".data, "", "p", none, 0, true, 0, 0, 0, 1⟩ : CanvasImage),
           ⟨"y".data, "u", "p", none, 0, false, 0, 0, 0, 1⟩],
          idStartsWith n.id failedMark = false)
        ∧ (⟨"FAILED-x".data, "", "p", none, 0, true, 0, 0, 0, 1⟩ : CanvasImage).id
            ∉ (reconcile "y".data (some "u2")
                [(⟨"FAILED-x".data, "", "p", none, 0, true, 0, 0, 0, 1⟩ : CanvasImage),
                 ⟨"y".data, "u", "p", none, 0, false, 0, 0, 0, 1⟩]).map CanvasImage.id) :=
  ⟨by decide, by decide,
   c10_failed_sentinel "y".data (some "u2") _ _ (by decide) (by decide)⟩

/-- How one backend call can go, as seen at the generation interface. -/
inductive BackendOutcome where
  | image (data : String)
  | empty
  | raise
deriving DecidableEq

/-- geminiService.ts `generateSingleImage`, modelled at its interface:
`getClient()` runs BEFORE the try/catch, so a missing API key raises out
of the function (a rejected promise, `Except.error`); inside the try, an
image part yields a data url, no image part yields null, and a thrown
API error is caught and converted to null. -/
def generateSingleImage (apiKey : Option String) (outcome : BackendOutcome) :
    Except String (Option String) :=
  match apiKey with
  | none => Except.error "API Key is missing"
  | some _ =>
    match outcome with
    | BackendOutcome.image d => Except.ok (some ("data:image/png;base64," ++ d))
    | BackendOutcome.empty => Except.ok none
    | BackendOutcome.raise => Except.ok none

/-- How App.tsx `handleGenerate` consumes one settled promise: the
`.then` handler reconciles the collection only on a fulfilled promise
(there is no `.catch`, so a rejection leaves the collection untouched),
while `.finally` always decrements `activeRequests`. -/
def settlePromise (pid : NodeId) (result : Except String (Option String)) (s : OrchState) :
    OrchState :=
  match result with
  | Except.ok url? => stepSettle pid url? s
  | Except.error _ =>
      let active := s.activeRequests - 1
      { s with activeRequests := active,
               status := if active = 0 then GenerationStatus.SUCCESS else s.status }

/-- A concrete in-flight placeholder used to exhibit C4's failure. -/
def c4Node : CanvasImage :=
  { id := "1-0".data, url := "", prompt := "p", parentId := none,
    timestamp := 0, isLoading := true, x := 0, y := 0, rotation := 0, scale := 1 }

/-- C4 counterexample: with the API key missing, `generateSingleImage`
raises (rejects) instead of returning none, and the orchestrator then
leaves the placeholder in the collection, still loading — it is NOT
removed, unlike the returned-none case. -/
theorem c4_raise_counterexample :
    generateSingleImage none BackendOutcome.raise = Except.error "API Key is missing"
    ∧ (settlePromise c4Node.id (generateSingleImage none BackendOutcome.raise)
        ⟨[c4Node], GenerationStatus.GENERATING, 1⟩).images = [c4Node]
    ∧ c4Node.isLoading = true
    ∧ (settlePromise c4Node.id (generateSingleImage (some "k") BackendOutcome.raise)
        ⟨[c4Node], GenerationStatus.GENERATING, 1⟩).images = [] := by
  refine ⟨rfl, rfl, rfl, by decide⟩

/-- C4 amended: only failures surfaced as a returned none (including API
errors thrown inside the call body, which the service catches and
converts to null) remove the placeholder; a rejected call — the API key
missing, thrown before the try block — leaves the whole collection,
placeholder included, untouched, though `.finally` still counts the
request as settled. -/
theorem c4_raise_vs_none (apiKey : Option String) (outcome : BackendOutcome)
    (pid : NodeId) (s : OrchState) :
    (apiKey = none →
        (settlePromise pid (generateSingleImage apiKey outcome) s).images = s.images)
    ∧ (∀ k, apiKey = some k →
        (outcome = BackendOutcome.empty ∨ outcome = BackendOutcome.raise) →
        ∀ img ∈ (settlePromise pid (generateSingleImage apiKey outcome) s).images,
          img.id ≠ pid) := by
  constructor
  · rintro rfl
    rfl
  · rintro k rfl hout img hmem
    have hok : generateSingleImage (some k) outcome = Except.ok none := by
      rcases hout with h | h <;> rw [h] <;> rfl
    rw [hok] at hmem
    simp only [settlePromise, stepSettle, reconcile, List.mem_filter,
      List.mem_map] at hmem
    obtain ⟨⟨a, -, rfl⟩, hkeep⟩ := hmem
    intro hid
    simp only [settleMap] at hid hkeep
    by_cases ha : a.id = pid
    · rw [if_pos ha] at hkeep
      simp [jsTruthy, idStartsWith_append] at hkeep
    · rw [if_neg ha] at hid
      exact ha hid

theorem c4_raise_vs_none_witness :
    ((some "k" : Option String) = none →
        (settlePromise c4Node.id (generateSingleImage (some "k") BackendOutcome.empty)
          ⟨[c4Node], GenerationStatus.GENERATING, 1⟩).images = [c4Node])
    ∧ (∀ kk, (some "k" : Option String) = some kk →
        (BackendOutcome.empty = BackendOutcome.empty
          ∨ BackendOutcome.empty = BackendOutcome.raise) →
        ∀ img ∈ (settlePromise c4Node.id (generateSingleImage (some "k") BackendOutcome.empty)
            ⟨[c4Node], GenerationStatus.GENERATING, 1⟩).images,
          img.id ≠ c4Node.id) :=
  c4_raise_vs_none (some "k") BackendOutcome.empty c4Node.id
    ⟨[c4Node], GenerationStatus.GENERATING, 1⟩

/-- HistoryItem from App.tsx (the optional preview field is unused by the
save path and omitted). -/
structure HistoryItem where
  id : String
  name : String
  timestamp : Int
deriving DecidableEq

/-- SavedCanvas from App.tsx: the persisted unit. -/
structure SavedCanvas where
  id : String
  images : List CanvasImage
  timestamp : Int
deriving DecidableEq

/-- The persistence store reachable from the save path: the canvases
object store (keyed by canvas id), the `morisot_last_canvas_id` meta key,
and the persisted `morisot_history_index` (the history list state, which
a dedicated effect mirrors into the meta store whenever it changes). -/
structure PStore where
  canvases : List (String × SavedCanvas)
  lastCanvasId : Option String
  historyIndex : List HistoryItem
deriving DecidableEq

/-- IndexedDB `put` on a keyPath object store: replace the record with
the same key if present, otherwise insert it. -/
def putCanvas (cs : List (String × SavedCanvas)) (k : String) (v : SavedCanvas) :
    List (String × SavedCanvas) :=
  if cs.any (fun p => decide (p.1 = k)) then
    cs.map (fun p => if p.1 = k then (k, v) else p)
  else (k, v) :: cs

/-- The history-list update inside `saveCurrentData`: name the entry
after the first image's prompt (with a JS falsy fallback and a
30-character truncation) and update-or-prepend it. -/
def updateHistoryIndex (prev : List HistoryItem) (currentId : String)
    (currentImages : List CanvasImage) (now : Int) : List HistoryItem :=
  let firstPrompt := match currentImages.head? with
    | some img => if img.prompt.isEmpty then "Untitled" else img.prompt
    | none => "Untitled"
  let name := if firstPrompt.length > 30 then firstPrompt.take 30 ++ "..." else firstPrompt
  let newItem : HistoryItem := ⟨currentId, name, now⟩
  if prev.any (fun p => decide (p.id = currentId)) then
    prev.map (fun p => if p.id = currentId then newItem else p)
  else newItem :: prev

/-- App.tsx `saveCurrentData`: a guard returns immediately when the
collection is empty; otherwise the canvas blob, the last-canvas-id meta
key and the history index are all written. -/
def saveCurrentData (currentId : String) (currentImages : List CanvasImage) (now : Int)
    (st : PStore) : PStore :=
  if currentImages.length = 0 then st
  else
    { canvases := putCanvas st.canvases currentId ⟨currentId, currentImages, now⟩,
      lastCanvasId := some currentId,
      historyIndex := updateHistoryIndex st.historyIndex currentId currentImages now }

/-- The debounced auto-save effect body: it bails out when the
collection is empty, otherwise defers to `saveCurrentData`. -/
def autoSaveStep (canvasId : String) (images : List CanvasImage) (now : Int) (st : PStore) :
    PStore :=
  if images.length = 0 then st else saveCurrentData canvasId images now st

/-- The save performed by `handleOpenHistory` before showing the list. -/
def saveBeforeOpenHistory (canvasId : String) (images : List CanvasImage) (now : Int)
    (st : PStore) : PStore :=
  if images.length > 0 then saveCurrentData canvasId images now st else st

/-- The save performed by `handleLoadCanvas` before loading another
canvas. -/
def saveBeforeLoad (canvasId : String) (images : List CanvasImage) (now : Int)
    (st : PStore) : PStore :=
  if images.length > 0 then saveCurrentData canvasId images now st else st

/-- The persistence writes of `handleNewCanvas`: save the current canvas
if it has images, then record the fresh canvas id as last visited. -/
def handleNewCanvasPersist (canvasId : String) (images : List CanvasImage) (now : Int)
    (newId : String) (st : PStore) : PStore :=
  let st1 := if images.length > 0 then saveCurrentData canvasId images now st else st
  { st1 with lastCanvasId := some newId }

/-- C9: with an empty node collection, every invocation of the save path
leaves the persistence store unchanged — no canvas blob is written and
no history-index entry is added or updated; the new-canvas flow only
records the fresh canvas id, never touching blobs or history. -/
theorem c9_no_empty_save (canvasId newId : String) (images : List CanvasImage) (now : Int)
    (st : PStore) (hempty : images = []) :
    saveCurrentData canvasId images now st = st
    ∧ autoSaveStep canvasId images now st = st
    ∧ saveBeforeOpenHistory canvasId images now st = st
    ∧ saveBeforeLoad canvasId images now st = st
    ∧ (handleNewCanvasPersist canvasId images now newId st).canvases = st.canvases
    ∧ (handleNewCanvasPersist canvasId images now newId st).historyIndex = st.historyIndex := by
  subst hempty
  refine ⟨rfl, rfl, rfl, rfl, rfl, rfl⟩

theorem c9_no_empty_save_witness :
    ([] : List CanvasImage) = []
    ∧ (saveCurrentData "c1" [] 7 ⟨[("c1", ⟨"c1", [c4Node], 3⟩)], some "c1", [⟨"c1", "n", 3⟩]⟩
          = ⟨[("c1", ⟨"c1", [c4Node], 3⟩)], some "c1", [⟨"c1", "n", 3⟩]⟩
        ∧ autoSaveStep "c1" [] 7 ⟨[("c1", ⟨"c1", [c4Node], 3⟩)], some "c1", [⟨"c1", "n", 3⟩]⟩
          = ⟨[("c1", ⟨"c1", [c4Node], 3⟩)], some "c1", [⟨"c1", "n", 3⟩]⟩
        ∧ saveBeforeOpenHistory "c1" [] 7
            ⟨[("c1", ⟨"c1", [c4Node], 3⟩)], some "c1", [⟨"c1", "n", 3⟩]⟩
          = ⟨[("c1", ⟨"c1", [c4Node], 3⟩)], some "c1", [⟨"c1", "n", 3⟩]⟩
        ∧ saveBeforeLoad "c1" [] 7 ⟨[("c1", ⟨"c1", [c4Node], 3⟩)], some "c1", [⟨"c1", "n", 3⟩]⟩
          = ⟨[("c1", ⟨"c1", [c4Node], 3⟩)], some "c1", [⟨"c1", "n", 3⟩]⟩
        ∧ (handleNewCanvasPersist "c1" [] 7 "c2"
            ⟨[("c1", ⟨"c1", [c4Node], 3⟩)], some "c1", [⟨"c1", "n", 3⟩]⟩).canvases
          = [("c1", ⟨"c1", [c4Node], 3⟩)]
        ∧ (handleNewCanvasPersist "c1" [] 7 "c2"
            ⟨[("c1", ⟨"c1", [c4Node], 3⟩)], some "c1", [⟨"c1", "n", 3⟩]⟩).historyIndex
          = [⟨"c1", "n", 3⟩]) :=
  ⟨rfl, c9_no_empty_save "c1" "c2" [] 7
    ⟨[("c1", ⟨"c1", [c4Node], 3⟩)], some "c1", [⟨"c1", "n", 3⟩]⟩ rfl⟩

/-- The per-node effect of one reconcile pass, packaged as a filterMap
step (map with settleMap, then keep only ids without the sentinel). -/
def settleElem (pid : NodeId) (url? : Option String) (img : CanvasImage) : Option CanvasImage :=
  if idStartsWith (settleMap pid url? img).id failedMark then none
  else some (settleMap pid url? img)

theorem reconcile_eq_filterMap (pid : NodeId) (url? : Option String)
    (imgs : List CanvasImage) :
    reconcile pid url? imgs = imgs.filterMap (settleElem pid url?) := by
  induction imgs with
  | nil => rfl
  | cons a l ih =>
      have hl := ih
      simp only [reconcile] at hl
      by_cases h : idStartsWith (settleMap pid url? a).id failedMark = true
      · have he : settleElem pid url? a = none := by
          simp only [settleElem]
          rw [if_pos h]
        simp [reconcile, List.filter_cons, he, h, hl]
      · have h' : idStartsWith (settleMap pid url? a).id failedMark = false :=
          Bool.eq_false_iff.mpr h
        have he : settleElem pid url? a = some (settleMap pid url? a) := by
          simp only [settleElem]
          rw [if_neg h]
        simp [reconcile, List.filter_cons, he, h', hl]

/-- The cumulative effect of a settle sequence on a single node. -/
def settleChain : List (CanvasImage × Option String) → CanvasImage → Option CanvasImage
  | [], img => some img
  | job :: rest, img =>
      match settleElem job.1.id job.2 img with
      | none => none
      | some next => settleChain rest next

theorem foldl_reconcile (seq : List (CanvasImage × Option String)) (l : List CanvasImage) :
    seq.foldl (fun acc job => reconcile job.1.id job.2 acc) l
      = l.filterMap (settleChain seq) := by
  induction seq generalizing l with
  | nil =>
      have hfn : settleChain ([] : List (CanvasImage × Option String)) = some :=
        funext fun img => rfl
      rw [List.foldl_nil, hfn, List.filterMap_some]
  | cons job rest ih =>
      rw [List.foldl_cons, ih, reconcile_eq_filterMap, List.filterMap_filterMap]
      congr 1
      funext img
      cases h : settleElem job.1.id job.2 img <;> simp [settleChain, h]

/-- A node whose id no settle step targets and which carries no sentinel
passes through the whole settle sequence unchanged. -/
theorem settleChain_skip (seq : List (CanvasImage × Option String)) (img : CanvasImage)
    (hpre : idStartsWith img.id failedMark = false)
    (hid : ∀ j ∈ seq, j.1.id ≠ img.id) :
    settleChain seq img = some img := by
  induction seq with
  | nil => rfl
  | cons j rest ih =>
      have h1 : j.1.id ≠ img.id := hid j (List.mem_cons_self j rest)
      have hne : ¬(img.id = j.1.id) := fun h => h1 h.symm
      have hmap : settleMap j.1.id j.2 img = img := by
        simp only [settleMap]
        rw [if_neg hne]
      have helem : settleElem j.1.id j.2 img = some img := by
        simp only [settleElem, hmap]
        rw [if_neg (by simp [hpre])]
      simp only [settleChain, helem]
      exact ih (fun x hx => hid x (List.mem_cons_of_mem _ hx))

/-- The settle sequence's effect on the one placeholder it targets
exactly once: updated in place when the result is truthy, removed
otherwise. -/
theorem settleChain_own (seq : List (CanvasImage × Option String)) (p q : CanvasImage)
    (r : Option String) (hpre : idStartsWith p.id failedMark = false)
    (hfil : seq.filter (fun x => decide (x.1.id = p.id)) = [(q, r)]) :
    settleChain seq p =
      if jsTruthy r then some { p with url := r.getD "", isLoading := false } else none := by
  induction seq with
  | nil => exact absurd hfil (by simp)
  | cons j rest ih =>
      by_cases hj : j.1.id = p.id
      · rw [List.filter_cons, if_pos (by simpa using hj)] at hfil
        injection hfil with hjq hrest
        have hr : j.2 = r := by rw [hjq]
        have hrest' : ∀ x ∈ rest, x.1.id ≠ p.id := by
          intro x hx
          have := List.filter_eq_nil_iff.mp hrest x hx
          simpa using this
        by_cases htr : jsTruthy r = true
        · have hmap : settleMap j.1.id j.2 p
              = { p with url := r.getD "", isLoading := false } := by
            simp only [settleMap]
            rw [if_pos hj.symm, hr, if_pos htr]
          have helem : settleElem j.1.id j.2 p
              = some { p with url := r.getD "", isLoading := false } := by
            simp only [settleElem, hmap]
            rw [if_neg (by simp [hpre])]
          simp only [settleChain, helem]
          rw [if_pos htr]
          exact settleChain_skip rest _ hpre hrest'
        · have hmap : settleMap j.1.id j.2 p = { p with id := failedMark ++ p.id } := by
            simp only [settleMap]
            rw [if_pos hj.symm, hr, if_neg htr]
          have helem : settleElem j.1.id j.2 p = none := by
            simp only [settleElem, hmap]
            rw [if_pos (by simpa using idStartsWith_append failedMark p.id)]
          simp only [settleChain, helem]
          rw [if_neg htr]
      · rw [List.filter_cons, if_neg (by simpa using hj)] at hfil
        have hne : ¬(p.id = j.1.id) := fun h => hj h.symm
        have hmap : settleMap j.1.id j.2 p = p := by
          simp only [settleMap]
          rw [if_neg hne]
        have helem : settleElem j.1.id j.2 p = some p := by
          simp only [settleElem, hmap]
          rw [if_neg (by simp [hpre])]
        simp only [settleChain, helem]
        exact ih hfil

/-- With pairwise-distinct placeholder ids, filtering the job list for
one job's id returns exactly that job. -/
theorem filter_self_singleton (jobs : List (CanvasImage × Option String))
    (j : CanvasImage × Option String) (hmem : j ∈ jobs)
    (hnodup : (jobs.map (fun x => x.1.id)).Nodup) :
    jobs.filter (fun x => decide (x.1.id = j.1.id)) = [j] := by
  induction jobs with
  | nil => cases hmem
  | cons a rest ih =>
      rw [List.map_cons, List.nodup_cons] at hnodup
      obtain ⟨hna, hnr⟩ := hnodup
      rcases List.mem_cons.mp hmem with rfl | hmem'
      · rw [List.filter_cons, if_pos (by simp)]
        have : rest.filter (fun x => decide (x.1.id = j.1.id)) = [] := by
          rw [List.filter_eq_nil_iff]
          intro x hx
          simp only [decide_eq_true_eq]
          intro hxj
          exact hna (hxj ▸ List.mem_map_of_mem _ hx)
        rw [this]
      · have hne : a.1.id ≠ j.1.id := by
          intro he
          exact hna (he ▸ List.mem_map_of_mem _ hmem')
        rw [List.filter_cons, if_neg (by simp [hne])]
        exact ih hmem' hnr

theorem filterMap_eq_self_of_some {α : Type} (l : List α) (f : α → Option α)
    (h : ∀ a ∈ l, f a = some a) : l.filterMap f = l := by
  induction l with
  | nil => rfl
  | cons a t ih =>
      simp only [List.filterMap_cons, h a (List.mem_cons_self a t)]
      rw [ih (fun x hx => h x (List.mem_cons_of_mem a hx))]

theorem filterMap_congr_mem {α β : Type} (l : List α) (f g : α → Option β)
    (h : ∀ a ∈ l, f a = g a) : l.filterMap f = l.filterMap g := by
  induction l with
  | nil => rfl
  | cons a t ih =>
      rw [List.filterMap_cons, List.filterMap_cons, h a (List.mem_cons_self a t),
        ih (fun x hx => h x (List.mem_cons_of_mem a hx))]

theorem runBatch_images (seq : List (CanvasImage × Option String)) :
    ∀ s : OrchState,
      (runBatch seq s).images
        = seq.foldl (fun acc job => reconcile job.1.id job.2 acc) s.images := by
  induction seq with
  | nil => intro s; rfl
  | cons j rest ih =>
      intro s
      simp only [runBatch, List.foldl_cons] at *
      exact ih (stepSettle j.1.id j.2 s)

theorem runBatch_status (seq : List (CanvasImage × Option String)) :
    ∀ s : OrchState, s.activeRequests = seq.length → seq ≠ [] →
      (runBatch seq s).status = GenerationStatus.SUCCESS
      ∧ (runBatch seq s).activeRequests = 0 := by
  induction seq with
  | nil => intro s _ hne; exact absurd rfl hne
  | cons j rest ih =>
      intro s hact _
      cases rest with
      | nil =>
          simp [runBatch, stepSettle, hact]
      | cons j2 rest2 =>
          have hstep : (stepSettle j.1.id j.2 s).activeRequests = (j2 :: rest2).length := by
            simp [stepSettle, hact]
          have := ih (stepSettle j.1.id j.2 s) hstep (by simp)
          simpa [runBatch, List.foldl_cons] using this

/-- The nodes a batch keeps: each placeholder whose url result is truthy,
updated in place (url set, isLoading cleared, everything else kept). -/
def successfulPlaceholders (jobs : List (CanvasImage × Option String)) : List CanvasImage :=
  jobs.filterMap fun j =>
    if jsTruthy j.2 then some { j.1 with url := j.2.getD "", isLoading := false } else none

/-- C1: a generation batch whose placeholders (appended to a base
collection with fresh, sentinel-free, pairwise-distinct ids) settle in
ANY order ends with exactly the base nodes plus the successful
placeholders updated in place; every failed placeholder's id is absent;
`activeRequests` reaches 0 and the batch status is SUCCESS. -/
theorem c1_batch_reconciliation (base : List CanvasImage)
    (jobs seq : List (CanvasImage × Option String))
    (hperm : seq.Perm jobs)
    (hbase_pre : ∀ b ∈ base, idStartsWith b.id failedMark = false)
    (hjob_pre : ∀ j ∈ jobs, idStartsWith j.1.id failedMark = false)
    (hnodup : (jobs.map (fun x => x.1.id)).Nodup)
    (hdisj : ∀ b ∈ base, ∀ j ∈ jobs, j.1.id ≠ b.id)
    (hlen : jobs.length = 5) :
    (runBatch seq
        ⟨base ++ jobs.map Prod.fst, GenerationStatus.GENERATING, jobs.length⟩).images
      = base ++ successfulPlaceholders jobs
    ∧ (runBatch seq
        ⟨base ++ jobs.map Prod.fst, GenerationStatus.GENERATING, jobs.length⟩).status
      = GenerationStatus.SUCCESS
    ∧ (runBatch seq
        ⟨base ++ jobs.map Prod.fst, GenerationStatus.GENERATING, jobs.length⟩).activeRequests
      = 0
    ∧ (∀ j ∈ jobs, jsTruthy j.2 = false →
        j.1.id ∉ (runBatch seq
          ⟨base ++ jobs.map Prod.fst, GenerationStatus.GENERATING,
            jobs.length⟩).images.map CanvasImage.id) := by
  have himg : (runBatch seq
      ⟨base ++ jobs.map Prod.fst, GenerationStatus.GENERATING, jobs.length⟩).images
      = base ++ successfulPlaceholders jobs := by
    rw [runBatch_images, foldl_reconcile, List.filterMap_append]
    congr 1
    · apply filterMap_eq_self_of_some
      intro b hb
      exact settleChain_skip seq b (hbase_pre b hb)
        (fun j hj => hdisj b hb j (hperm.subset hj))
    · rw [List.filterMap_map]
      apply filterMap_congr_mem
      intro j hj
      have hfil : seq.filter (fun x => decide (x.1.id = j.1.id)) = [(j.1, j.2)] := by
        have h1 : jobs.filter (fun x => decide (x.1.id = j.1.id)) = [j] :=
          filter_self_singleton jobs j hj hnodup
        have h2 := hperm.filter (fun x => decide (x.1.id = j.1.id))
        rw [h1] at h2
        exact List.perm_singleton.mp h2
      exact settleChain_own seq j.1 j.1 j.2 (hjob_pre j hj) hfil
  have hstat := runBatch_status seq
    ⟨base ++ jobs.map Prod.fst, GenerationStatus.GENERATING, jobs.length⟩
    (by simp [hperm.length_eq])
    (by
      intro hnil
      rw [hnil] at hperm
      have := hperm.length_eq
      rw [hlen] at this
      simp at this)
  refine ⟨himg, hstat.1, hstat.2, ?_⟩
  intro j hj hfalse hidmem
  rw [himg, List.map_append, List.mem_append] at hidmem
  rcases hidmem with hleft | hright
  · obtain ⟨b, hb, hbid⟩ := List.mem_map.mp hleft
    exact hdisj b hb j hj hbid.symm
  · obtain ⟨x, hx, hxid⟩ := List.mem_map.mp hright
    obtain ⟨j', hj', hxeq⟩ := List.mem_filterMap.mp hx
    by_cases ht : jsTruthy j'.2 = true
    · rw [if_pos ht] at hxeq
      have hx' := Option.some.inj hxeq
      have hids : j'.1.id = j.1.id := by
        rw [← hxid, ← hx']
      have : j' = j := List.inj_on_of_nodup_map hnodup hj' hj hids
      rw [this] at ht
      rw [ht] at hfalse
      exact Bool.true_eq_false.mp hfalse
    · rw [if_neg ht] at hxeq
      exact Option.noConfusion hxeq

/-- Concrete placeholders for the C1 witness: a batch of five, of which
requests 0, 2 and 4 succeed and 1 and 3 fail. -/
def c1Job (c : Char) (x : ℚ) (res : Option String) : CanvasImage × Option String :=
  ({ id := ['t', '-', c], url := "", prompt := "v", parentId := none,
     timestamp := 0, isLoading := true, x := x, y := 400, rotation := 0,
     scale := 1 }, res)

def c1Jobs : List (CanvasImage × Option String) :=
  [c1Job '0' 0 (some "u0"), c1Job '1' 320 none, c1Job '2' 640 (some "u2"),
   c1Job '3' 960 none, c1Job '4' 1280 (some "u4")]

/-- The settle order for the witness: requests resolve out of spawn
order. -/
def c1Seq : List (CanvasImage × Option String) :=
  [c1Job '3' 960 none, c1Job '0' 0 (some "u0"), c1Job '4' 1280 (some "u4"),
   c1Job '1' 320 none, c1Job '2' 640 (some "u2")]

theorem c1_batch_reconciliation_witness :
    c1Seq.Perm c1Jobs
    ∧ (∀ b ∈ ([] : List CanvasImage), idStartsWith b.id failedMark = false)
    ∧ (∀ j ∈ c1Jobs, idStartsWith j.1.id failedMark = false)
    ∧ (c1Jobs.map (fun x => x.1.id)).Nodup
    ∧ (∀ b ∈ ([] : List CanvasImage), ∀ j ∈ c1Jobs, j.1.id ≠ b.id)
    ∧ c1Jobs.length = 5
    ∧ ((runBatch c1Seq
          ⟨[] ++ c1Jobs.map Prod.fst, GenerationStatus.GENERATING, c1Jobs.length⟩).images
        = [] ++ successfulPlaceholders c1Jobs
      ∧ (runBatch c1Seq
          ⟨[] ++ c1Jobs.map Prod.fst, GenerationStatus.GENERATING, c1Jobs.length⟩).status
        = GenerationStatus.SUCCESS
      ∧ (runBatch c1Seq
          ⟨[] ++ c1Jobs.map Prod.fst, GenerationStatus.GENERATING,
            c1Jobs.length⟩).activeRequests = 0
      ∧ (∀ j ∈ c1Jobs, jsTruthy j.2 = false →
          j.1.id ∉ (runBatch c1Seq
            ⟨[] ++ c1Jobs.map Prod.fst, GenerationStatus.GENERATING,
              c1Jobs.length⟩).images.map CanvasImage.id)) :=
  ⟨by decide, by decide, by decide, by decide, by decide, by decide,
   c1_batch_reconciliation [] c1Jobs c1Seq (by decide) (by decide) (by decide)
     (by decide) (by decide) (by decide)⟩

/-- The interaction state shared by Canvas.tsx and the ImageCard whose
body the gesture touches: the node collection and selection (App.tsx),
the viewport and the panning/dragging flags (Canvas.tsx), and the card's
`dragStartRef` (ImageCard.tsx). -/
structure CanvasState where
  images : List CanvasImage
  selectedId : Option NodeId
  view : ViewState
  isPanning : Bool
  draggedImageId : Option NodeId
  lastMousePos : ℚ × ℚ
  dragStart : Option (ℚ × ℚ)
deriving DecidableEq

/-- App.tsx `handleUpdateImage` specialised to the x/y merge performed
while dragging. -/
def updateImageXY (id : NodeId) (nx ny : ℚ) (imgs : List CanvasImage) : List CanvasImage :=
  imgs.map fun img => if img.id = id then { img with x := nx, y := ny } else img

/-- Pointer-down on a card body: ImageCard.tsx records `dragStartRef`
and Canvas.tsx `handleImageMouseDown` arms the drag (note: no selection
happens here). -/
def imageMouseDown (id : NodeId) (pos : ℚ × ℚ) (s : CanvasState) : CanvasState :=
  { s with dragStart := some pos, draggedImageId := some id, lastMousePos := pos }

/-- Canvas.tsx `handleMouseMove`: pan in screen space, or drag the
active node by the screen delta divided by the zoom. -/
def canvasMouseMove (pos : ℚ × ℚ) (s : CanvasState) : CanvasState :=
  let deltaX := pos.1 - s.lastMousePos.1
  let deltaY := pos.2 - s.lastMousePos.2
  let s' := { s with lastMousePos := pos }
  if s'.isPanning then
    { s' with view := { s'.view with x := s'.view.x + deltaX, y := s'.view.y + deltaY } }
  else
    match s'.draggedImageId with
    | some id =>
        match s'.images.find? (fun i => decide (i.id = id)) with
        | some img =>
            let nx := img.x + deltaX / s'.view.k
            let ny := img.y + deltaY / s'.view.k
            { s' with images := updateImageXY id nx ny s'.images }
        | none => s'
    | none => s'

/-- Canvas.tsx `handleMouseUp`. -/
def canvasMouseUp (s : CanvasState) : CanvasState :=
  { s with isPanning := false, draggedImageId := none }

/-- ImageCard.tsx `handleClick`, fired by the browser after pointer-up
at the release position: toggle selection only when the pointer ended
within 5px of `dragStartRef` (Math.hypot(dx, dy) < 5 iff
dx^2 + dy^2 < 25, both sides being nonnegative). -/
def cardClick (id : NodeId) (pos : ℚ × ℚ) (s : CanvasState) : CanvasState :=
  match s.dragStart with
  | some start =>
      if (pos.1 - start.1) ^ 2 + (pos.2 - start.2) ^ 2 < 25 then
        { s with selectedId := handleSelect id s.selectedId }
      else s
  | none => { s with selectedId := handleSelect id s.selectedId }

/-- One full pointer gesture on a node body: pointer-down at `p0`, the
pointer visiting `moves`, pointer-up, then the browser click at the
final pointer position. -/
def runGesture (id : NodeId) (p0 : ℚ × ℚ) (moves : List (ℚ × ℚ)) (s : CanvasState) :
    CanvasState :=
  let s1 := imageMouseDown id p0 s
  let s2 := moves.foldl (fun st p => canvasMouseMove p st) s1
  cardClick id (moves.getLastD p0) (canvasMouseUp s2)

/-- The net effect of a drag on the collection: shift the dragged node
by the accumulated screen delta divided by the zoom. -/
def dragShift (id : NodeId) (dx dy k : ℚ) (imgs : List CanvasImage) : List CanvasImage :=
  imgs.map fun img =>
    if img.id = id then { img with x := img.x + dx / k, y := img.y + dy / k } else img

theorem map_eq_self_of_mem {α : Type} (l : List α) (f : α → α)
    (h : ∀ a ∈ l, f a = a) : l.map f = l := by
  induction l with
  | nil => rfl
  | cons a t ih =>
      rw [List.map_cons, h a (List.mem_cons_self a t),
        ih (fun x hx => h x (List.mem_cons_of_mem a hx))]

theorem dragShift_zero (id : NodeId) (k : ℚ) (imgs : List CanvasImage) :
    dragShift id 0 0 k imgs = imgs := by
  simp only [dragShift, zero_div, add_zero]
  exact map_eq_self_of_mem _ _ (fun a _ => by split <;> rfl)

theorem dragShift_map_id (id : NodeId) (dx dy k : ℚ) (imgs : List CanvasImage) :
    (dragShift id dx dy k imgs).map CanvasImage.id = imgs.map CanvasImage.id := by
  simp only [dragShift, List.map_map]
  apply List.map_congr_left
  intro img _
  simp only [Function.comp_apply]
  split <;> rfl

theorem dragShift_dragShift (id : NodeId) (a b c d k : ℚ) (imgs : List CanvasImage) :
    dragShift id c d k (dragShift id a b k imgs) = dragShift id (a + c) (b + d) k imgs := by
  simp only [dragShift, List.map_map]
  apply List.map_congr_left
  intro img _
  simp only [Function.comp_apply]
  by_cases h : img.id = id
  · rw [if_pos h]
    simp only []
    rw [if_pos h, if_pos h]
    simp only [CanvasImage.mk.injEq, and_true, true_and]
    constructor
    · rw [add_assoc, div_add_div_same]
    · rw [add_assoc, div_add_div_same]
  · rw [if_neg h, if_neg h, if_neg h]

/-- One mousemove during an armed, non-panning drag shifts the dragged
node by the step delta over the zoom and records the new pointer
position. -/
theorem canvasMouseMove_drag (p : ℚ × ℚ) (s : CanvasState) (id : NodeId)
    (hdrag : s.draggedImageId = some id) (hpan : s.isPanning = false)
    (hnodup : (s.images.map CanvasImage.id).Nodup) :
    canvasMouseMove p s
      = { s with
          images := dragShift id (p.1 - s.lastMousePos.1) (p.2 - s.lastMousePos.2)
              s.view.k s.images,
          lastMousePos := p } := by
  simp only [canvasMouseMove, hpan, hdrag, Bool.false_eq_true, reduceIte]
  cases hfind : s.images.find? (fun i => decide (i.id = id)) with
  | none =>
      have hnone : ∀ i ∈ s.images, i.id ≠ id := by
        intro i hi
        have := List.find?_eq_none.mp hfind i hi
        simpa using this
      have hds : dragShift id (p.1 - s.lastMousePos.1) (p.2 - s.lastMousePos.2)
          s.view.k s.images = s.images := by
        simp only [dragShift]
        exact map_eq_self_of_mem _ _ (fun a ha => by rw [if_neg (hnone a ha)])
      rw [hds]
  | some img0 =>
      have h0id : img0.id = id := by simpa using List.find?_some hfind
      have h0mem : img0 ∈ s.images := List.mem_of_find?_eq_some hfind
      have hupd : updateImageXY id (img0.x + (p.1 - s.lastMousePos.1) / s.view.k)
            (img0.y + (p.2 - s.lastMousePos.2) / s.view.k) s.images
          = dragShift id (p.1 - s.lastMousePos.1) (p.2 - s.lastMousePos.2)
              s.view.k s.images := by
        simp only [updateImageXY, dragShift]
        apply List.map_congr_left
        intro a ha
        by_cases haid : a.id = id
        · have haeq : a = img0 :=
            List.inj_on_of_nodup_map hnodup ha h0mem (by rw [haid, h0id])
          subst haeq
          simp [haid]
        · rw [if_neg haid, if_neg haid]
      simp only [hupd]

/-- Folding the mousemoves of a drag shifts the dragged node by the net
pointer displacement over the zoom, leaving every other field except the
recorded pointer position alone. -/
theorem moveFold (moves : List (ℚ × ℚ)) :
    ∀ (s : CanvasState) (id : NodeId),
      s.draggedImageId = some id → s.isPanning = false →
      (s.images.map CanvasImage.id).Nodup →
      moves.foldl (fun st p => canvasMouseMove p st) s
        = { s with
            images := dragShift id ((moves.getLastD s.lastMousePos).1 - s.lastMousePos.1)
                ((moves.getLastD s.lastMousePos).2 - s.lastMousePos.2) s.view.k s.images,
            lastMousePos := moves.getLastD s.lastMousePos } := by
  induction moves with
  | nil =>
      intro s id hdrag hpan hnodup
      rw [List.foldl_nil]
      show s = { s with
        images := dragShift id (s.lastMousePos.1 - s.lastMousePos.1)
            (s.lastMousePos.2 - s.lastMousePos.2) s.view.k s.images,
        lastMousePos := s.lastMousePos }
      rw [sub_self, sub_self, dragShift_zero]
  | cons p rest ih =>
      intro s id hdrag hpan hnodup
      rw [List.foldl_cons, canvasMouseMove_drag p s id hdrag hpan hnodup]
      have hnodup' : ((dragShift id (p.1 - s.lastMousePos.1) (p.2 - s.lastMousePos.2)
          s.view.k s.images).map CanvasImage.id).Nodup := by
        rw [dragShift_map_id]
        exact hnodup
      rw [ih { s with
          images := dragShift id (p.1 - s.lastMousePos.1) (p.2 - s.lastMousePos.2)
              s.view.k s.images,
          lastMousePos := p } id hdrag hpan hnodup']
      rw [List.getLastD_cons]
      simp only []
      rw [dragShift_dragShift]
      congr 2 <;> ring

/-- C3 (amended): a pointer gesture on a node body always moves the node
by the net pointer displacement over the zoom; a release within the 5px
threshold additionally toggles the node's selection, while a release at
or beyond the threshold leaves the selection exactly as it was — the
code never selects the node on pointer-down. -/
theorem c3_click_drag (id : NodeId) (p0 : ℚ × ℚ) (moves : List (ℚ × ℚ)) (s : CanvasState)
    (hpan : s.isPanning = false) (hnodup : (s.images.map CanvasImage.id).Nodup) :
    (((moves.getLastD p0).1 - p0.1) ^ 2 + ((moves.getLastD p0).2 - p0.2) ^ 2 < 25 →
        (runGesture id p0 moves s).selectedId = handleSelect id s.selectedId)
    ∧ (¬(((moves.getLastD p0).1 - p0.1) ^ 2 + ((moves.getLastD p0).2 - p0.2) ^ 2 < 25) →
        (runGesture id p0 moves s).selectedId = s.selectedId)
    ∧ (runGesture id p0 moves s).images
        = dragShift id ((moves.getLastD p0).1 - p0.1) ((moves.getLastD p0).2 - p0.2)
            s.view.k s.images := by
  have hfold := moveFold moves
    { s with dragStart := some p0, draggedImageId := some id, lastMousePos := p0 }
    id rfl hpan hnodup
  dsimp only at hfold
  simp only [runGesture, imageMouseDown]
  rw [hfold]
  simp only [canvasMouseUp, cardClick]
  by_cases hc : ((moves.getLastD p0).1 - p0.1) ^ 2 + ((moves.getLastD p0).2 - p0.2) ^ 2 < 25
  · rw [if_pos hc]
    exact ⟨fun _ => rfl, fun hnc => absurd hc hnc, rfl⟩
  · rw [if_neg hc]
    exact ⟨fun hcc => absurd hcc hc, fun _ => rfl, rfl⟩

/-- The single unselected node used to exhibit C3's drag behaviour. -/
def c3Node : CanvasImage :=
  { id := ['a'], url := "u", prompt := "p", parentId := none, timestamp := 0,
    isLoading := false, x := 0, y := 0, rotation := 0, scale := 1 }

def c3State : CanvasState :=
  { images := [c3Node], selectedId := none, view := ⟨0, 0, 1⟩, isPanning := false,
    draggedImageId := none, lastMousePos := (0, 0), dragStart := none }

/-- C3 counterexample: a 10px drag of an unselected node moves it but
leaves it UNSELECTED — the claim's "selection happens on pointer-down,
so a drag both selects and moves" is false on this code. -/
theorem c3_click_drag_counterexample :
    ((10 : ℚ) - 0) ^ 2 + ((0 : ℚ) - 0) ^ 2 ≥ 25
    ∧ (runGesture ['a'] (0, 0) [(10, 0)] c3State).images.map CanvasImage.x = [10]
    ∧ (runGesture ['a'] (0, 0) [(10, 0)] c3State).selectedId ≠ some ['a'] := by
  have h1 : runGesture ['a'] (0, 0) [(10, 0)] c3State
      = { images := [{ c3Node with x := 10, y := 0 }], selectedId := none,
          view := ⟨0, 0, 1⟩, isPanning := false, draggedImageId := none,
          lastMousePos := (10, 0), dragStart := some (0, 0) } := by
    norm_num [runGesture, imageMouseDown, canvasMouseMove, canvasMouseUp, cardClick,
      updateImageXY, c3State, c3Node, List.find?]
  rw [h1]
  refine ⟨by norm_num, by norm_num [c3Node], by simp⟩

theorem c3_click_drag_witness :
    c3State.isPanning = false
    ∧ (c3State.images.map CanvasImage.id).Nodup
    ∧ (((([(10, 0)] : List (ℚ × ℚ)).getLastD (0, 0)).1 - 0) ^ 2
          + ((([(10, 0)] : List (ℚ × ℚ)).getLastD (0, 0)).2 - 0) ^ 2 < 25 →
        (runGesture ['a'] ((0 : ℚ), (0 : ℚ)) [(10, 0)] c3State).selectedId
          = handleSelect ['a'] c3State.selectedId)
    ∧ (¬(((([(10, 0)] : List (ℚ × ℚ)).getLastD (0, 0)).1 - 0) ^ 2
          + ((([(10, 0)] : List (ℚ × ℚ)).getLastD (0, 0)).2 - 0) ^ 2 < 25) →
        (runGesture ['a'] ((0 : ℚ), (0 : ℚ)) [(10, 0)] c3State).selectedId
          = c3State.selectedId)
    ∧ (runGesture ['a'] ((0 : ℚ), (0 : ℚ)) [(10, 0)] c3State).images
        = dragShift ['a'] ((([(10, 0)] : List (ℚ × ℚ)).getLastD (0, 0)).1 - 0)
            ((([(10, 0)] : List (ℚ × ℚ)).getLastD (0, 0)).2 - 0)
            c3State.view.k c3State.images := by
  have h := c3_click_drag ['a'] ((0 : ℚ), (0 : ℚ)) [(10, 0)] c3State rfl (by decide)
  exact ⟨rfl, by decide, h.1, h.2.1, h.2.2⟩
